import Mathlib

/-!
Verification of the kodigcs media server's metadata resolution cache,
path codec, and certificate rotation supervisor, as a shallow embedding
of the Go source (handle.go, main.go, sheet.go) in Lean 4.

Machine integers are modelled as Nat/Int with explicit reduction mod 2^w
where overflow matters.  Go's `time.Time` is modelled as an Int count of
nanoseconds.  Go maps are modelled as association lists (insertion
replaces), Go sets as duplicate-free lists with insertion order.
-/

/-! ## Go standard-library string helpers (strings, strconv, path/filepath) -/

/-- Go `strings.HasSuffix`. -/
def goHasSuffix (s suf : String) : Bool :=
  suf.data.isSuffixOf s.data

/-- Go `strings.TrimSuffix`: removes one trailing occurrence of `suf`, if present. -/
def goTrimSuffix (s suf : String) : String :=
  if goHasSuffix s suf then String.mk (s.data.take (s.data.length - suf.data.length)) else s

/-- Go `strings.TrimPrefix`: removes one leading occurrence of `pre`, if present. -/
def goTrimPrefix (s pre : String) : String :=
  if pre.data.isPrefixOf s.data then String.mk (s.data.drop pre.data.length) else s

/-- Helper for `goExt`: scan the reversed character list; stop at a path
separator, return the extension (reversed back) when a dot is found. -/
def goExtAux (acc : List Char) : List Char → List Char
  | [] => []
  | c :: rest =>
    if c = '/' then []
    else if c = '.' then '.' :: acc
    else goExtAux (c :: acc) rest

/-- Go `filepath.Ext`: the suffix beginning at the final dot in the final
slash-separated element of the path; empty if there is no dot. -/
def goExt (s : String) : String :=
  String.mk (goExtAux [] s.data.reverse)

/-- Go `strings.Trim(s, "/")`: strip leading and trailing slash characters. -/
def trimSlashes (s : String) : String :=
  String.mk (((s.data.dropWhile (· = '/')).reverse.dropWhile (· = '/')).reverse)

/-- Go `strconv.Atoi`: optional sign, one or more ASCII digits, 64-bit range;
anything else is an error (`none`). -/
def goAtoi (s : String) : Option Int :=
  let p : Int × List Char :=
    match s.data with
    | '+' :: rest => (1, rest)
    | '-' :: rest => (-1, rest)
    | l => (1, l)
  if p.2 = [] ∨ ¬ (p.2.all Char.isDigit) then none
  else
    let n : Nat := p.2.foldl (fun acc c => 10 * acc + (c.toNat - 48)) 0
    let v : Int := p.1 * (n : Int)
    if v < -9223372036854775808 ∨ v > 9223372036854775807 then none else some v

/-- Split a character list on a separator character (strings.Split). -/
def splitOnChar (c : Char) : List Char → List (List Char)
  | [] => [[]]
  | x :: xs =>
    let r := splitOnChar c xs
    if x = c then [] :: r
    else
      match r with
      | [] => [[x]]
      | hd :: tl => (x :: hd) :: tl

/-- Go `strings.TrimSpace` on a character list. -/
def trimSpaceList (l : List Char) : List Char :=
  ((l.dropWhile Char.isWhitespace).reverse.dropWhile Char.isWhitespace).reverse

/-- Go `strings.ToLower` (ASCII range, as every recognized heading is ASCII). -/
def goToLower (s : String) : String :=
  String.mk (s.data.map Char.toLower)

/-- `splitsemi` from handle.go: split on ";", trim space, drop empties. -/
def splitsemi (s : String) : List String :=
  (splitOnChar ';' s.data).foldl
    (fun result f =>
      let trimmed := String.mk (trimSpaceList f)
      if trimmed = "" then result else result ++ [trimmed]) []

/-! ## SHA-256 (crypto/sha256), on lists of byte values -/

/-- Addition of 32-bit words. -/
def add32 (a b : Nat) : Nat := (a + b) % 4294967296

/-- Right rotation of a 32-bit word by `n`. -/
def rotr (n x : Nat) : Nat := ((x >>> n) ||| (x <<< (32 - n))) % 4294967296

def shaCh (x y z : Nat) : Nat := (x &&& y) ^^^ ((x ^^^ 4294967295) &&& z)

def shaMaj (x y z : Nat) : Nat := (x &&& y) ^^^ (x &&& z) ^^^ (y &&& z)

def bsig0 (x : Nat) : Nat := rotr 2 x ^^^ rotr 13 x ^^^ rotr 22 x

def bsig1 (x : Nat) : Nat := rotr 6 x ^^^ rotr 11 x ^^^ rotr 25 x

def ssig0 (x : Nat) : Nat := rotr 7 x ^^^ rotr 18 x ^^^ (x >>> 3)

def ssig1 (x : Nat) : Nat := rotr 17 x ^^^ rotr 19 x ^^^ (x >>> 10)

/-- The 64 SHA-256 round constants, as decimal Nat values. -/
def shaK : List Nat :=
  [1116352408, 1899447441, 3049323471, 3921009573, 961987163, 1508970993,
   2453635748, 2870763221, 3624381080, 310598401, 607225278, 1426881987,
   1925078388, 2162078206, 2614888103, 3248222580, 3835390401, 4022224774,
   264347078, 604807628, 770255983, 1249150122, 1555081692, 1996064986,
   2554220882, 2821834349, 2952996808, 3210313671, 3336571891, 3584528711,
   113926993, 338241895, 666307205, 773529912, 1294757372, 1396182291,
   1695183700, 1986661051, 2177026350, 2456956037, 2730485921, 2820302411,
   3259730800, 3345764771, 3516065817, 3600352804, 4094571909, 275423344,
   430227734, 506948616, 659060556, 883997877, 958139571, 1322822218,
   1537002063, 1747873779, 1955562222, 2024104815, 2227730452, 2361852424,
   2428436474, 2756734187, 3204031479, 3329325298]

/-- Hash state: eight 32-bit words. -/
structure Hash8 where
  a : Nat
  b : Nat
  c : Nat
  d : Nat
  e : Nat
  f : Nat
  g : Nat
  h : Nat
deriving Repr, DecidableEq

/-- SHA-256 initial hash value, as decimal Nat values. -/
def shaH0 : Hash8 :=
  ⟨1779033703, 3144134277, 1013904242, 2773480762, 1359893119, 2600822924, 528734635, 1541459225⟩

/-- Big-endian 32-bit word from four bytes. -/
def word32 (b0 b1 b2 b3 : Nat) : Nat := (b0 <<< 24) ||| (b1 <<< 16) ||| (b2 <<< 8) ||| b3

/-- Group bytes into big-endian 32-bit words (input length a multiple of 4). -/
def toWords : List Nat → List Nat
  | b0 :: b1 :: b2 :: b3 :: rest => word32 b0 b1 b2 b3 :: toWords rest
  | _ => []

/-- One message-schedule extension step on the reversed word list:
`w[i] = ssig1 w[i-2] + w[i-7] + ssig0 w[i-15] + w[i-16]`. -/
def extStep (wrev : List Nat) : List Nat :=
  add32 (add32 (ssig1 (wrev.getD 1 0)) (wrev.getD 6 0))
        (add32 (ssig0 (wrev.getD 14 0)) (wrev.getD 15 0)) :: wrev

/-- Iterate `extStep` n times. -/
def extendW : Nat → List Nat → List Nat
  | 0, wrev => wrev
  | n + 1, wrev => extendW n (extStep wrev)

/-- The 64-word message schedule of one 64-byte block. -/
def msgSchedule (block : List Nat) : List Nat :=
  (extendW 48 (toWords block).reverse).reverse

/-- One SHA-256 compression round. -/
def roundStep (st : Hash8) (kw : Nat × Nat) : Hash8 :=
  let t1 := add32 (add32 (add32 st.h (bsig1 st.e)) (add32 (shaCh st.e st.f st.g) kw.1)) kw.2
  let t2 := add32 (bsig0 st.a) (shaMaj st.a st.b st.c)
  ⟨add32 t1 t2, st.a, st.b, st.c, add32 st.d t1, st.e, st.f, st.g⟩

/-- Compress one 64-byte block into the hash state. -/
def shaCompress (H : Hash8) (block : List Nat) : Hash8 :=
  let st := ((shaK.zip (msgSchedule block)).foldl roundStep H)
  ⟨add32 H.a st.a, add32 H.b st.b, add32 H.c st.c, add32 H.d st.d,
   add32 H.e st.e, add32 H.f st.f, add32 H.g st.g, add32 H.h st.h⟩

/-- The 8-byte big-endian encoding of the bit length. -/
def lenBytes (n : Nat) : List Nat :=
  [(n >>> 56) % 256, (n >>> 48) % 256, (n >>> 40) % 256, (n >>> 32) % 256,
   (n >>> 24) % 256, (n >>> 16) % 256, (n >>> 8) % 256, n % 256]

/-- SHA-256 padding: 0x80, zeros to 56 mod 64, then the 64-bit bit length. -/
def padMsg (msg : List Nat) : List Nat :=
  let L := msg.length
  let k := (119 - (L % 64)) % 64
  msg ++ [128] ++ List.replicate k 0 ++ lenBytes (8 * L)

/-- Split into 64-byte chunks. -/
def chunks64 (l : List Nat) : List (List Nat) :=
  if h : l = [] then [] else l.take 64 :: chunks64 (l.drop 64)
termination_by l.length
decreasing_by
  cases l with
  | nil => exact absurd rfl h
  | cons x xs => simp [List.length_drop]; omega

/-- Big-endian bytes of a 32-bit word. -/
def be32 (x : Nat) : List Nat :=
  [(x >>> 24) % 256, (x >>> 16) % 256, (x >>> 8) % 256, x % 256]

/-- The 32 digest bytes of a hash state. -/
def hashBytes (H : Hash8) : List Nat :=
  be32 H.a ++ be32 H.b ++ be32 H.c ++ be32 H.d ++ be32 H.e ++ be32 H.f ++ be32 H.g ++ be32 H.h

/-- SHA-256 of a byte sequence (Go `sha256.Sum256`). -/
def sha256 (msg : List Nat) : List Nat :=
  hashBytes ((chunks64 (padMsg msg)).foldl shaCompress shaH0)

/-! ## URL-safe base64 (encoding/base64, URLEncoding) and UTF-8 bytes -/

/-- UTF-8 encoding of one character, as byte values (Go `[]byte(string)`). -/
def utf8Enc (c : Char) : List Nat :=
  let n := c.toNat
  if n < 128 then [n]
  else if n < 2048 then [192 ||| (n >>> 6), 128 ||| (n &&& 63)]
  else if n < 65536 then
    [224 ||| (n >>> 12), 128 ||| ((n >>> 6) &&& 63), 128 ||| (n &&& 63)]
  else
    [240 ||| (n >>> 18), 128 ||| ((n >>> 12) &&& 63), 128 ||| ((n >>> 6) &&& 63), 128 ||| (n &&& 63)]

/-- The UTF-8 bytes of a string. -/
def utf8Bytes (s : String) : List Nat :=
  (s.data.map utf8Enc).flatten

/-- The URL-safe base64 alphabet (Go `base64.URLEncoding`). -/
def b64Alphabet : List Char :=
  "ABCDEFGHIJKLMNOPQRSTUVWXYZabcdefghijklmnopqrstuvwxyz0123456789-_".data

def b64Char (n : Nat) : Char := b64Alphabet.getD n 'A'

/-- URL-safe base64 encoding with padding, as a character list. -/
def b64Encode : List Nat → List Char
  | [] => []
  | [a] => [b64Char (a >>> 2), b64Char ((a % 4) <<< 4), '=', '=']
  | [a, b] => [b64Char (a >>> 2), b64Char (((a % 4) <<< 4) ||| (b >>> 4)), b64Char ((b % 16) <<< 2), '=']
  | a :: b :: c :: rest =>
    b64Char (a >>> 2) :: b64Char (((a % 4) <<< 4) ||| (b >>> 4)) ::
      b64Char (((b % 16) <<< 2) ||| (c >>> 6)) :: b64Char (c % 64) :: b64Encode rest

/-- `rootNamePrefix` from main.go: SHA-256 the root name, URL-safe-base64 the
digest, keep the first 7 characters, append "-". -/
def rootNamePrefix (rootName : String) : String :=
  String.mk ((b64Encode (sha256 (utf8Bytes rootName))).take 7) ++ "-"

/-! ## Data model (main.go: movieInfo, thumb, actor) -/

/-- `thumb` from main.go. -/
structure thumb where
  Aspect : String
  Val : String
  origVal : String
deriving Repr, DecidableEq

/-- `actor` from main.go.  `Order` is the display order assigned at append time. -/
structure actor where
  Name : String
  Role : String
  Order : Nat
deriving Repr, DecidableEq

/-- `movieInfo` from main.go.  Zero value: empty strings and lists, zero numbers. -/
structure movieInfo where
  Title : String := ""
  SortTitle : String := ""
  Year : Int := 0
  Thumbs : List thumb := []
  Directors : List String := []
  Actors : List actor := []
  Runtime : Int := 0
  Trailer : String := ""
  Outline : String := ""
  Plot : String := ""
  Tagline : String := ""
  Genre : String := ""
  subdir : String := ""
  imdbID : String := ""
deriving Repr, DecidableEq

instance : Inhabited movieInfo := ⟨{}⟩

/-! ## URL parsing model (net/url), for the trailer field and imdbid -/

/-- The parts of a parsed URL used by ensureInfoMap's trailer case. -/
structure GoURL where
  host : String
  path : String
  rawQuery : String
deriving Repr, DecidableEq

/-- Helper: split a character list at the first occurrence of `pat`. -/
def breakAtAux (pat : List Char) (acc : List Char) : List Char → Option (List Char × List Char)
  | [] => none
  | c :: rest =>
    if pat.isPrefixOf (c :: rest) then some (acc.reverse, (c :: rest).drop pat.length)
    else breakAtAux pat (c :: acc) rest

/-- Modelled from Go's `net/url.Parse`, simplified to the observations the
trailer switch makes (Host, Path, RawQuery) for well-formed http(s) URLs:
scheme up to "://", host up to the first of / ? #, path up to ?, query up
to #.  A string without "://" parses as a relative URL with an empty host.
Percent-unescaping is not modelled.  This models an external stdlib
collaborator, not repository code. -/
def urlParse (s : String) : Option GoURL :=
  let rest :=
    match breakAtAux "://".data [] s.data with
    | some (_, r) => r
    | none => s.data
  let host := if (breakAtAux "://".data [] s.data).isSome then
      rest.takeWhile (fun c => c ≠ '/' ∧ c ≠ '?' ∧ c ≠ '#') else []
  let after := rest.drop host.length
  let path := (after.takeWhile (· ≠ '?')).takeWhile (· ≠ '#')
  let query := ((after.drop path.length).drop 1).takeWhile (· ≠ '#')
  some ⟨String.mk host, String.mk path, String.mk query⟩

/-- Modelled from Go's `net/url.ParseQuery` plus `qvals["v"][0]` as used in
ensureInfoMap: the value of the first `key=` component (a bare `key`
component has value ""), without percent-unescaping. -/
def queryGet (q key : String) : Option String :=
  ((splitOnChar '&' q.data).filterMap fun comp =>
      let k := comp.takeWhile (· ≠ '=')
      if String.mk k = key then some (String.mk (comp.drop (k.length + 1))) else none).head?

/-- `parseIMDbID` from imdb.go: if the input matches
`^https?://(?:www\.)?imdb\.com/title/([[:alnum:]]+)` return the captured
alphanumeric run, else return the input unchanged. -/
def parseIMDbID (inp : String) : String :=
  let afterScheme : Option (List Char) :=
    if "https://".data.isPrefixOf inp.data then some (inp.data.drop 8)
    else if "http://".data.isPrefixOf inp.data then some (inp.data.drop 7)
    else none
  match afterScheme with
  | none => inp
  | some rest =>
    let rest := if "www.".data.isPrefixOf rest then rest.drop 4 else rest
    if "imdb.com/title/".data.isPrefixOf rest then
      let run := (rest.drop 15).takeWhile Char.isAlphanum
      if run = [] then inp else String.mk run
    else inp

/-! ## ensureInfoMap's per-row processing (handle.go) -/

/-- A spreadsheet cell (`interface{}` in Go): `none` models a non-string value. -/
abbrev Cell := Option String

/-- Build the Kodi YouTube-plugin trailer URI. -/
def setTrailer (ytid : String) (info : movieInfo) : movieInfo :=
  { info with Trailer := "plugin://plugin.video.youtube/?action=play_video&videoid=" ++ ytid }

/-- The `case "trailer"` arm of ensureInfoMap's field switch. -/
def applyTrailer (val : String) (info : movieInfo) : movieInfo :=
  match urlParse val with
  | none => info
  | some u =>
    if u.host = "www.youtube.com" then
      if goTrimPrefix u.path "/" ≠ "watch" then info
      else
        match queryGet u.rawQuery "v" with
        | some ytid => if ytid = "" then info else setTrailer ytid info
        | none => info
    else if u.host = "youtu.be" then
      let ytid := goTrimPrefix u.path "/"
      if ytid = "" then info else setTrailer ytid info
    else info

/-- The heading switch of ensureInfoMap's row loop, applied to one non-empty
string cell value.  Unknown headings leave the record unchanged; `year` and
`runtime` values that fail `strconv.Atoi` are skipped (logged in Go). -/
def applyField (rootName heading val : String) (info : movieInfo) : movieInfo :=
  match heading with
  | "title" => { info with Title := val }
  | "sort" => { info with SortTitle := goToLower val }
  | "year" =>
    match goAtoi val with
    | none => info
    | some year => { info with Year := year }
  | "banner" | "clearart" | "clearlogo" | "discart" | "landscape" | "poster" =>
    let v := if info.Thumbs.length = 0 then "/thumbs/" ++ rootName ++ goExt val else val
    { info with Thumbs := info.Thumbs ++ [⟨heading, v, val⟩] }
  | "directors" => { info with Directors := info.Directors ++ splitsemi val }
  | "actors" =>
    { info with Actors := (splitsemi val).foldl (fun acc a => acc ++ [⟨a, "", acc.length⟩]) info.Actors }
  | "runtime" =>
    match goAtoi val with
    | none => info
    | some mins => { info with Runtime := mins }
  | "trailer" => applyTrailer val info
  | "outline" => { info with Outline := val }
  | "plot" => { info with Plot := val }
  | "tagline" => { info with Tagline := val }
  | "genre" => { info with Genre := val }
  | "subdir" => { info with subdir := val }
  | "imdbid" => { info with imdbID := parseIMDbID val }
  | _ => info

/-- Process one cell: non-string and empty-string cells are skipped. -/
def applyCell (rootName heading : String) (c : Cell) (info : movieInfo) : movieInfo :=
  match c with
  | none => info
  | some val => if val = "" then info else applyField rootName heading val info

/-- The row loop of ensureInfoMap: index 0 (the name column) is skipped, the
loop breaks when the index reaches the number of headings. -/
def procCells (headings : List String) (rootName : String) :
    List Cell → Nat → movieInfo → movieInfo
  | [], _, info => info
  | c :: rest, j, info =>
    if j = 0 then procCells headings rootName rest (j + 1) info
    else if j < headings.length then
      procCells headings rootName rest (j + 1) (applyCell rootName (headings.getD j "") c info)
    else info

/-- A name's root: the name with its extension stripped. -/
def rootNameOf (name : String) : String := goTrimSuffix name (goExt name)

/-- ensureInfoMap's per-row callback: run the cell loop, then default the
title to the root name and the sort title to `bib.Key` of the title.
`bk` abstracts the external `bib.Key` collaborator (github.com/bobg/bib). -/
def processRow (bk : String → String) (headings : List String) (name : String)
    (row : List Cell) : movieInfo :=
  let rootName := rootNameOf name
  let info := procCells headings rootName row 0 {}
  let info := if info.Title = "" then { info with Title := rootName } else info
  if info.SortTitle = "" then { info with SortTitle := bk info.Title } else info

/-- Association-list update with Go map semantics: replace or append. -/
def mapInsert (m : List (String × movieInfo)) (k : String) (v : movieInfo) :
    List (String × movieInfo) :=
  if m.any (fun p => p.1 = k) then m.map (fun p => if p.1 = k then (k, v) else p)
  else m ++ [(k, v)]

/-- Go map lookup. -/
def lookupInfo (m : List (String × movieInfo)) (k : String) : Option movieInfo :=
  (m.find? (fun p => p.1 = k)).map (fun p => p.2)

/-- handleSheet's heading row: every string cell lower-cased, non-strings "". -/
def buildHeadings (hr : List Cell) : List String :=
  hr.map fun c =>
    match c with
    | some heading => goToLower heading
    | none => ""

/-- One row of handleSheet's loop (sheet.go): rows shorter than 2 cells or
with a non-string first cell are skipped; a processed row's record is stored
under its root name. -/
def sheetStep (bk : String → String) (headings : List String)
    (m : List (String × movieInfo)) (row : List Cell) : List (String × movieInfo) :=
  if row.length < 2 then m
  else
    match row.head? with
    | some (some name) => mapInsert m (rootNameOf name) (processRow bk headings name row)
    | _ => m

/-- handleSheet (sheet.go) feeding ensureInfoMap's callback: `none` models the
"got %d spreadsheet row(s), want 2 or more" error. -/
def processSheet (bk : String → String) (values : List (List Cell)) :
    Option (List (String × movieInfo)) :=
  match values with
  | [] => none
  | [_] => none
  | hr :: rows => some (rows.foldl (sheetStep bk (buildHeadings hr)) [])

/-! ## Error model (pkg/errors, bobg/errors, context, net/http sentinels) -/

/-- Go error values relevant to this core.  `wrap` models `errors.Wrap`
(message plus cause), `join` models `errors.Join`; `errors.Is` searches the
tree.  `nil` is `Option.none` at use sites. -/
inductive Err where
  | canceled
  | serverClosed
  | backendUnavailable
  | certExited
  | noCertProduced
  | other (msg : String)
  | wrap (msg : String) (cause : Err)
  | join (a b : Err)
deriving Repr, DecidableEq

/-- Go `errors.Is(e, target)` for sentinel targets: unwrap `wrap`, search both
sides of `join`, compare leaves. -/
def errIsTarget (target : Err) : Err → Bool
  | .wrap _ cause => errIsTarget target cause
  | .join a b => errIsTarget target a || errIsTarget target b
  | e => e = target

/-- `errors.Is` on a possibly-nil error. -/
def errIsOpt (target : Err) : Option Err → Bool
  | none => false
  | some e => errIsTarget target e

/-- `errors.Wrap(err, msg)`: nil stays nil. -/
def wrapOpt (msg : String) (e : Option Err) : Option Err := e.map (.wrap msg)

/-- `errors.Join(a, b)` with nils dropped. -/
def joinOpt : Option Err → Option Err → Option Err
  | none, none => none
  | some a, none => some a
  | none, some b => some b
  | some a, some b => some (.join a b)

/-! ## The two caches and their refresh operations (handle.go) -/

/-- `staleTime = 5 * time.Minute`, in nanoseconds. -/
def staleTime : Int := 300000000000

/-- `isStale` from handle.go: `t.Before(now.Add(-staleTime))`. -/
def isStale (t now : Int) : Bool := t < now - staleTime

/-- The object-name cache: `s.objNames` (nil or a set) and `s.objNamesTime`. -/
structure ObjCache where
  objNames : Option (List String)
  objNamesTime : Int
deriving Repr, DecidableEq

/-- `set.Add`: insert if absent, keeping insertion order. -/
def setAdd (l : List String) (x : String) : List String :=
  if x ∈ l then l else l ++ [x]

/-- Build a set from an enumeration, in order. -/
def setOfList (names : List String) : List String := names.foldl setAdd []

/-- The outcome of one full bucket enumeration (`s.bucket.Objects` iterated):
either every object name, or the names yielded before the iterator failed. -/
inductive EnumResult where
  | enumOk (names : List String)
  | enumFail (pre : List String) (e : Err)
deriving Repr, DecidableEq

/-- Is the cached set usable without a refresh?  handle.go:
`s.objNames != nil && s.objNames.Len() > 0 && !isStale(s.objNamesTime)`. -/
def objCacheFresh (c : ObjCache) (now : Int) : Bool :=
  (match c.objNames with
   | some l => decide (0 < l.length)
   | none => false) && !(isStale c.objNamesTime now)

/-- `ensureObjNames` as a state transition.  Returns (error, new cache state,
whether a backend enumeration was performed).  On refresh the set is first
replaced by a fresh empty set and filled as the iterator yields names, so a
failed enumeration leaves the names yielded so far and the old timestamp. -/
def ensureObjNames (now : Int) (enum : EnumResult) (c : ObjCache) :
    Option Err × ObjCache × Bool :=
  if objCacheFresh c now then (none, c, false)
  else
    match enum with
    | .enumOk names => (none, ⟨some (setOfList names), now⟩, true)
    | .enumFail pre e =>
      (some (.wrap "iterating over bucket" e), ⟨some (setOfList pre), c.objNamesTime⟩, true)

/-- The metadata cache: `s.infoMap` and `s.infoMapTime`. -/
structure InfoCache where
  infoMap : List (String × movieInfo)
  infoMapTime : Int
deriving Repr, DecidableEq

/-- The outcome of one spreadsheet fetch (`sheetsSvc.Values.Get(...).Do()`). -/
inductive SheetResult where
  | sheetOk (values : List (List Cell))
  | sheetFail (e : Err)

/-- handle.go: `len(s.infoMap) > 0 && !isStale(s.infoMapTime)`. -/
def infoCacheFresh (c : InfoCache) (now : Int) : Bool :=
  decide (0 < c.infoMap.length) && !(isStale c.infoMapTime now)

/-- `ensureInfoMap` as a state transition: a no-op without a sheet ID or with a
fresh non-empty table; otherwise the table is cleared and rebuilt from the
fetched rows, the timestamp advancing only on success. -/
def ensureInfoMap (bk : String → String) (now : Int) (sheetID : String)
    (sheet : SheetResult) (c : InfoCache) : Option Err × InfoCache × Bool :=
  if sheetID = "" then (none, c, false)
  else if infoCacheFresh c now then (none, c, false)
  else
    match sheet with
    | .sheetFail e => (some (.wrap "reading spreadsheet data" e), ⟨[], c.infoMapTime⟩, true)
    | .sheetOk values =>
      match processSheet bk values with
      | none => (some (.other "want 2 or more spreadsheet rows"), ⟨[], c.infoMapTime⟩, true)
      | some m => (none, ⟨m, now⟩, true)

/-! ## Directory listing and path resolution (handle.go) -/

/-- The server state that handleDir and parsePath read. -/
structure SrvState where
  objNames : List String
  infoMap : List (String × movieInfo)
  subdirs : Bool

/-- Concatenation of the images of a list under a list-valued function. -/
def concatMap (f : α → List β) : List α → List β
  | [] => []
  | x :: xs => f x ++ concatMap f xs

/-- The directory entries handleDir emits for one stored object name: only
`.iso` objects pass the extension switch, each contributing a prefixed media
path and a prefixed `.nfo` path, filtered by subdirectory membership. -/
def entryPaths (st : SrvState) (subdir objName : String) : List String :=
  let ext := goExt objName
  if ext = ".iso" ∨ ext = ".m2ts" ∨ ext = ".m4v" then
    if ext = ".iso" then
      let rootName := goTrimSuffix objName ext
      let pfx := rootNamePrefix rootName
      match lookupInfo st.infoMap rootName with
      | some info =>
        if st.subdirs ∧ info.subdir ≠ subdir then []
        else [pfx ++ objName, pfx ++ rootName ++ ".nfo"]
      | none =>
        if st.subdirs ∧ subdir ≠ "" then []
        else [pfx ++ objName, pfx ++ rootName ++ ".nfo"]
    else []
  else []

/-- The subdirectory links handleDir appends at the top level: each distinct
non-empty subdirectory label, with a trailing slash. -/
def subdirEntries (st : SrvState) (subdir : String) : List String :=
  if st.subdirs ∧ subdir = "" then
    (((st.infoMap.map (fun p => p.2.subdir)).filter (· ≠ "")).dedup).map (· ++ "/")
  else []

/-- The items handleDir renders for a directory request (`listEntries`). -/
def listEntries (st : SrvState) (subdir : String) : List String :=
  concatMap (entryPaths st subdir) st.objNames ++ subdirEntries st subdir

/-- The scanning loop of parsePath over the metadata table. -/
def parsePathLoop (path pathRoot : String) :
    List (String × movieInfo) → String × String
  | [] => ("", path)
  | (rootName, info) :: rest =>
    if path = info.subdir then (path, "")
    else if pathRoot = info.subdir ++ "/" ++ rootNamePrefix rootName ++ rootName then
      (info.subdir, goTrimPrefix path (info.subdir ++ "/"))
    else if pathRoot = rootNamePrefix rootName ++ rootName then ("", path)
    else parsePathLoop path pathRoot rest

/-- `parsePath`: propagate an ensureInfoMap failure, else scan the table; an
unmatched path comes back as ("", path). -/
def parsePath (ensureErr : Option Err) (infoMap : List (String × movieInfo))
    (path : String) : Except Err (String × String) :=
  match ensureErr with
  | some e => .error e
  | none => .ok (parsePathLoop path (goTrimSuffix path (goExt path)) infoMap)

/-! ## Certificate rotation supervisor (main.go: serveHelper, serveHelper2,
serveWithCert).  Concurrency is modelled by an explicit event schedule: each
select is resolved by the event that fires, carrying the data the Go code
would read from the fired channel. -/

/-- An opaque TLS certificate (tls.Certificate), identified by a number. -/
abbrev Cert := Nat

/-- How serveWithCert's final select resolves: either the context is canceled
(Shutdown runs with some outcome, then the listener goroutine's error is
drained), or the listener goroutine terminates on its own. -/
inductive SWCEvent where
  | ctxDone (shutdownErr : Option Err) (listenErr : Option Err)
  | listenerDone (e : Option Err)
deriving Repr, DecidableEq

/-- `serveWithCert`: on cancellation, Shutdown (with a detached context) then
swallow `http.ErrServerClosed` from the listener; a listener error of
`http.ErrServerClosed` is also success. -/
def serveWithCert : SWCEvent → Option Err
  | .ctxDone shutdownErr listenErr =>
    match shutdownErr with
    | some e => some (.wrap "in Shutdown" e)
    | none =>
      if errIsOpt .serverClosed listenErr then none
      else wrapOpt "in ListenAndServe" listenErr
  | .listenerDone e =>
    if errIsOpt .serverClosed e then none
    else wrapOpt "in ListenAndServe" e

/-- How serveHelper2's three-way select resolves.  `certArrived` carries the
error that the inner serveWithCert goroutine delivers after the inner
context is canceled. -/
inductive S2Event where
  | outerDone
  | listenerDone (e : Option Err)
  | certArrived (c : Cert) (innerErr : Option Err)
  | certClosed
deriving Repr, DecidableEq

/-- The Canceled-swallowing step of serveHelper2: a Canceled error is dropped
when the outer context is still alive. -/
def swallow (outerErr e : Option Err) : Option Err :=
  if errIsOpt .canceled e && outerErr == none then none else e

/-- `serveHelper2`: returns the next certificate (if rotation continues) and
the error surfaced to serveHelper.  `outerErr` is `outerCtx.Err()` at the
moment the select fires. -/
def serveHelper2 (outerErr : Option Err) : S2Event → Option Cert × Option Err
  | .outerDone => (none, outerErr)
  | .listenerDone e => (none, wrapOpt "error from goroutine" (swallow outerErr e))
  | .certArrived c innerErr => (some c, wrapOpt "after canceling goroutine" (swallow outerErr innerErr))
  | .certClosed => (none, some .certExited)

/-- The result of serveHelper's serving loop.  `serving c` means the schedule
ran out while still serving certificate `c`; `nilCertPanic` marks the
`cert = *newCertPtr` nil dereference reachable when serveHelper2 returns a
nil certificate with a nil error. -/
inductive HelperRes where
  | returned (e : Option Err)
  | serving (c : Cert)
  | nilCertPanic
deriving Repr, DecidableEq

/-- serveHelper's `for` loop: run serveHelper2 on each scheduled select
resolution; a non-nil error returns wrapped, a new certificate re-enters
serving. -/
def serveLoop (cert : Cert) : List (Option Err × S2Event) → HelperRes
  | [] => .serving cert
  | (outerErr, ev) :: rest =>
    match serveHelper2 outerErr ev with
    | (_, some e) => .returned (some (.wrap "serving with certificate" e))
    | (some c, none) => serveLoop c rest
    | (none, none) => .nilCertPanic

/-- How serveHelper's first select (awaiting the first certificate) resolves. -/
inductive FirstEv where
  | firstOuterDone
  | firstRecv (c : Cert)
  | firstClosed
deriving Repr, DecidableEq

/-- The certcmd path of `serveHelper`: launch the cert command, await the
first certificate, then loop; the deferred `wait()` error is joined onto
every return after a successful launch. -/
def serveHelperCert (launch : Option Err) (first : FirstEv)
    (sched : List (Option Err × S2Event)) (waitErr : Option Err) : HelperRes :=
  match launch with
  | some e => .returned (some (.wrap "launching cert command" e))
  | none =>
    match first with
    | .firstOuterDone => .returned (joinOpt (some .canceled) waitErr)
    | .firstClosed => .returned (joinOpt (some .noCertProduced) waitErr)
    | .firstRecv c =>
      match serveLoop c sched with
      | .returned e => .returned (joinOpt e waitErr)
      | r => r

/-- `serveHelper`: without a certcmd it is exactly serveWithCert with no
certificate; with one it is the rotation loop. -/
def serveHelper (certcmdPresent : Bool) (plain : SWCEvent) (launch : Option Err)
    (first : FirstEv) (sched : List (Option Err × S2Event))
    (waitErr : Option Err) : HelperRes :=
  if certcmdPresent then serveHelperCert launch first sched waitErr
  else .returned (serveWithCert plain)

/-- A serving-loop step that completes a rotation cleanly: the outer context
is alive, a new certificate arrives, and the inner listener's error (nil or
Canceled) is swallowed. -/
def cleanRotation (p : Option Err × S2Event) : Prop :=
  p.1 = none ∧ ∃ c ie, p.2 = S2Event.certArrived c ie ∧ swallow none ie = none

/-! ## The request handler (handle.go: handle) -/

/-- Server configuration fields read by handle. -/
structure SrvCfg where
  username : String
  password : String
  sheetID : String
  subdirs : Bool

/-- An inbound HTTP request: its Basic Auth credentials (none models
`req.BasicAuth()` returning ok=false) and its URL path. -/
structure HttpReq where
  basicAuth : Option (String × String)
  path : String

/-- The external-world outcomes a request may consume. -/
structure HandleEnv where
  now : Int
  enum : EnumResult
  sheet : SheetResult
  bk : String → String

/-- A backing-store access performed while handling a request. -/
inductive BackendCall where
  | listBucket
  | readSheet
  | readObj (name : String)
deriving Repr, DecidableEq

/-- What handle produces for the client. -/
inductive HandleRes where
  | unauthorized
  | failed (e : Err)
  | badRequest
  | dirPage (items : List String)
  | infoJson (m : List (String × movieInfo))
  | nfoDoc (info : movieInfo)
  | media (objName : String)

def callsIf (called : Bool) (c : BackendCall) : List BackendCall :=
  if called then [c] else []

/-- `handleDir`: refuse subdirectories in non-subdirs mode, refresh both
caches, then render the listing. -/
def handleDir (cfg : SrvCfg) (env : HandleEnv) (subdir : String)
    (obj : ObjCache) (info : InfoCache) :
    HandleRes × (ObjCache × InfoCache) × List BackendCall :=
  if ¬cfg.subdirs ∧ subdir ≠ "" then (.badRequest, (obj, info), [])
  else
    match ensureObjNames env.now env.enum obj with
    | (some e, obj', oc) => (.failed (.wrap "getting obj names" e), (obj', info), callsIf oc .listBucket)
    | (none, obj', oc) =>
      match ensureInfoMap env.bk env.now cfg.sheetID env.sheet info with
      | (some e, info', ic) =>
        (.failed (.wrap "getting info map" e), (obj', info'),
          callsIf oc .listBucket ++ callsIf ic .readSheet)
      | (none, info', ic) =>
        (.dirPage (listEntries ⟨(obj'.objNames).getD [], info'.infoMap, cfg.subdirs⟩ subdir),
          (obj', info'), callsIf oc .listBucket ++ callsIf ic .readSheet)

/-- `handleNFO`: refresh the metadata table, then serve the record (or a
title-only record) for the path with ".nfo" stripped. -/
def handleNFO (cfg : SrvCfg) (env : HandleEnv) (path : String) (info : InfoCache) :
    HandleRes × InfoCache × List BackendCall :=
  match ensureInfoMap env.bk env.now cfg.sheetID env.sheet info with
  | (some e, info', ic) => (.failed (.wrap "getting info map" e), info', callsIf ic .readSheet)
  | (none, info', ic) =>
    let root := goTrimSuffix path ".nfo"
    let record :=
      match lookupInfo info'.infoMap root with
      | some i => i
      | none => { Title := root }
    (.nfoDoc record, info', callsIf ic .readSheet)

/-- `handle` after the Basic Auth gate: dispatch on the trimmed path. -/
def handleAfterAuth (cfg : SrvCfg) (env : HandleEnv) (req : HttpReq)
    (obj : ObjCache) (info : InfoCache) :
    HandleRes × (ObjCache × InfoCache) × List BackendCall :=
  let path := trimSlashes req.path
  if path = "" then handleDir cfg env "" obj info
  else if path = "infomap" then
    match ensureInfoMap env.bk env.now cfg.sheetID env.sheet info with
    | (some e, info', ic) => (.failed (.wrap "getting info map" e), (obj, info'), callsIf ic .readSheet)
    | (none, info', ic) => (.infoJson info'.infoMap, (obj, info'), callsIf ic .readSheet)
  else
    match ensureInfoMap env.bk env.now cfg.sheetID env.sheet info with
    | (some e, info', ic) =>
      (.failed (.wrap "parsing path" e), (obj, info'), callsIf ic .readSheet)
    | (none, info', ic) =>
      let sc := callsIf ic .readSheet
      let pr := parsePathLoop path (goTrimSuffix path (goExt path)) info'.infoMap
      if pr.2 = "" then
        let r := handleDir cfg env pr.1 obj info'
        (r.1, r.2.1, sc ++ r.2.2)
      else
        let objname := pr.2.drop 8
        if goHasSuffix objname ".nfo" then
          let r := handleNFO cfg env objname info'
          (r.1, (obj, r.2.1), sc ++ r.2.2)
        else (.media objname, (obj, info'), sc ++ [.readObj objname])

/-- `handle`: when both a username and a password are configured, reject
absent or mismatched Basic Auth credentials with 401 Unauthorized before
anything else runs. -/
def handle (cfg : SrvCfg) (env : HandleEnv) (req : HttpReq)
    (obj : ObjCache) (info : InfoCache) :
    HandleRes × (ObjCache × InfoCache) × List BackendCall :=
  if cfg.username ≠ "" ∧ cfg.password ≠ "" then
    match req.basicAuth with
    | none => (.unauthorized, (obj, info), [])
    | some (u, p) =>
      if u ≠ cfg.username ∨ p ≠ cfg.password then (.unauthorized, (obj, info), [])
      else handleAfterAuth cfg env req obj info
  else handleAfterAuth cfg env req obj info

/-! ## Length facts about the path codec -/

theorem b64Encode_length (l : List Nat) : (b64Encode l).length = 4 * ((l.length + 2) / 3) := by
  induction l using b64Encode.induct with
  | case1 => simp [b64Encode]
  | case2 a => simp [b64Encode]
  | case3 a b => simp [b64Encode]
  | case4 a b c rest ih =>
    simp only [b64Encode, List.length_cons, ih]
    omega

theorem hashBytes_length (H : Hash8) : (hashBytes H).length = 32 := by
  simp [hashBytes, be32]

theorem sha256_length (msg : List Nat) : (sha256 msg).length = 32 := by
  rw [sha256, hashBytes_length]

/-- Every hash prefix is exactly 8 characters: 7 base64 characters of the
digest plus the "-" separator. -/
theorem rootNamePrefix_length (r : String) : (rootNamePrefix r).length = 8 := by
  rw [rootNamePrefix, String.length_append, String.length_mk, List.length_take,
    b64Encode_length, sha256_length]
  rfl

/-- C4, claim as stated, fails: the prefix of "Alien" is not 7 characters long. -/
theorem rootNamePrefix_Alien_not7 : ¬ (rootNamePrefix "Alien").length = 7 := by
  rw [rootNamePrefix_length]
  decide

/-- C4 (amended): for every root name `r`, `rootNamePrefix r` depends only on
the UTF-8 bytes of `r` (no randomness or per-process salt), is 8 characters
long (7 base64 characters of the digest plus the "-" separator), and is
computed as the first 7 characters of the URL-safe base64 encoding of the
SHA-256 digest of those bytes followed by "-". -/
theorem rootNamePrefix_spec (r : String) :
    (∀ r', utf8Bytes r = utf8Bytes r' → rootNamePrefix r = rootNamePrefix r') ∧
    (rootNamePrefix r).length = 8 ∧
    rootNamePrefix r = String.mk ((b64Encode (sha256 (utf8Bytes r))).take 7) ++ "-" := by
  refine ⟨fun r' h => ?_, rootNamePrefix_length r, rfl⟩
  rw [rootNamePrefix, rootNamePrefix, h]

/-- Witness for C4's theorem at the root name "Alien". -/
theorem rootNamePrefix_spec_witness :
    rootNamePrefix "Alien" = rootNamePrefix "Alien" ∧ (rootNamePrefix "Alien").length = 8 :=
  ⟨(rootNamePrefix_spec "Alien").1 "Alien" rfl, (rootNamePrefix_spec "Alien").2.1⟩

/-! ## Object-name cache refresh: failure and staleness-window behavior -/

/-- C1, claim as stated, fails: with a stale cache holding "old.iso", a failed
enumeration leaves an empty Object Name Set, not the previous set (the
timestamp, however, is unchanged). -/
theorem ensureObjNames_fail_clears :
    (ensureObjNames 1000000000000 (.enumFail [] .backendUnavailable)
        ⟨some ["old.iso"], 0⟩).2.1.objNames ≠
      (ObjCache.mk (some ["old.iso"]) 0).objNames := by
  decide

/-- C1 (amended): if a backend enumeration performed by ensureObjNames fails
(which requires the cached set to have been missing, empty or stale), the
freshness timestamp is unchanged, but the Object Name Set is not retained:
it was replaced at the start of the refresh and afterwards holds exactly the
names enumerated before the failure (possibly none). -/
theorem ensureObjNames_fail_state (now : Int) (pre : List String) (e : Err)
    (c : ObjCache) (h : objCacheFresh c now = false) :
    ensureObjNames now (.enumFail pre e) c =
      (some (.wrap "iterating over bucket" e), ⟨some (setOfList pre), c.objNamesTime⟩, true) := by
  simp [ensureObjNames, h]

/-- Witness for C1's theorem: a stale cache from time 0 queried at 10^12 ns. -/
theorem ensureObjNames_fail_state_witness :
    objCacheFresh ⟨some ["old.iso"], 0⟩ 1000000000000 = false ∧
      ensureObjNames 1000000000000 (.enumFail ["a.iso"] .backendUnavailable)
          ⟨some ["old.iso"], 0⟩ =
        (some (.wrap "iterating over bucket" .backendUnavailable),
          ⟨some (setOfList ["a.iso"]), 0⟩, true) :=
  ⟨by decide,
    ensureObjNames_fail_state 1000000000000 ["a.iso"] .backendUnavailable
      ⟨some ["old.iso"], 0⟩ (by decide)⟩

/-- C5, claim as stated, fails: after a first successful call that enumerated
an empty bucket, an immediate second call performs another backend
enumeration (the cached-set check requires a non-empty set). -/
theorem ensureObjNames_empty_reenumerates :
    (ensureObjNames 0 (.enumOk []) ⟨none, 0⟩).1 = none ∧
      (ensureObjNames 0 (.enumOk []) (ensureObjNames 0 (.enumOk []) ⟨none, 0⟩).2.1).2.2 = true := by
  decide

/-- C5 (amended): after a call to ensureObjNames succeeds leaving a non-empty
Object Name Set, every second call within the 5-minute staleness window
(now minus the set's freshness timestamp not exceeding 5 minutes) performs
no backend enumeration and returns success with the Object Name Set and its
freshness timestamp unchanged. -/
theorem ensureObjNames_cached (t0 t1 : Int) (e0 e1 : EnumResult) (c0 : ObjCache)
    (hok : (ensureObjNames t0 e0 c0).1 = none)
    (hne : 0 < ((ensureObjNames t0 e0 c0).2.1.objNames.getD []).length)
    (hw : t1 - (ensureObjNames t0 e0 c0).2.1.objNamesTime ≤ staleTime) :
    ensureObjNames t1 e1 (ensureObjNames t0 e0 c0).2.1 =
      (none, (ensureObjNames t0 e0 c0).2.1, false) := by
  generalize (ensureObjNames t0 e0 c0).2.1 = c1 at hne hw ⊢
  have hfresh : objCacheFresh c1 t1 = true := by
    rcases hobj : c1.objNames with _ | l
    · rw [hobj] at hne
      simp at hne
    · rw [hobj] at hne
      simp only [Option.getD_some] at hne
      simp only [objCacheFresh, hobj, isStale, Bool.and_eq_true, decide_eq_true_eq,
        Bool.not_eq_true', decide_eq_false_iff_not, not_lt]
      exact ⟨hne, by omega⟩
  simp [ensureObjNames, hfresh]

/-- Witness for C5's theorem: first call fills the cache at time 0, the second
call one nanosecond later is answered from the cache. -/
theorem ensureObjNames_cached_witness :
    ensureObjNames 1 (.enumOk ["b.iso"]) (ensureObjNames 0 (.enumOk ["a.iso"]) ⟨none, 0⟩).2.1 =
      (none, (ensureObjNames 0 (.enumOk ["a.iso"]) ⟨none, 0⟩).2.1, false) :=
  ensureObjNames_cached 0 1 (.enumOk ["a.iso"]) (.enumOk ["b.iso"]) ⟨none, 0⟩
    (by decide) (by decide) (by decide)

/-! ## Certificate rotation: cancellation and rotation behavior -/

/-- After any sequence of clean rotations, outer cancellation makes the
serving loop return the wrapped Canceled error from `outerCtx.Err()`. -/
theorem serveLoop_cancel (pre : List (Option Err × S2Event)) (c : Cert)
    (h : ∀ p ∈ pre, cleanRotation p) :
    serveLoop c (pre ++ [(some .canceled, .outerDone)]) =
      .returned (some (.wrap "serving with certificate" .canceled)) := by
  induction pre generalizing c with
  | nil => rfl
  | cons p rest ih =>
    obtain ⟨h1, c', ie, h2, h3⟩ := h p (List.mem_cons_self p rest)
    obtain ⟨oe, ev⟩ := p
    simp only at h1 h2
    subst h1 h2
    simp only [List.cons_append, serveLoop, serveHelper2, h3, wrapOpt, Option.map_none']
    exact ih c' fun q hq => h q (List.mem_cons_of_mem _ hq)

/-- C2, claim as stated, fails: with a certificate command configured and a
first certificate being served, outer cancellation makes serveHelper return
a wrapped Canceled error, not nil. -/
theorem serveHelper_cancel_not_nil :
    serveHelper true (.listenerDone none) none (.firstRecv 0)
        [(some .canceled, .outerDone)] none =
      .returned (some (.wrap "serving with certificate" .canceled)) ∧
    .returned (some (Err.wrap "serving with certificate" .canceled)) ≠
      (HelperRes.returned none) := by
  constructor
  · rfl
  · decide

/-- C2 (amended): outer cancellation is a clean nil-error shutdown only on the
no-certificate-command path (where the plain listener is gracefully shut
down and `http.ErrServerClosed` is swallowed).  With a certificate command,
for every serving state reached through clean rotations and a nil `wait()`
result, triggering the outer cancellation makes serveHelper return the
wrapped Canceled error from `outerCtx.Err()`: the Canceled condition does
leak to the caller. -/
theorem serveHelper_cancel_spec (launch : Option Err) (first : FirstEv)
    (sched : List (Option Err × S2Event)) (w : Option Err)
    (plain : SWCEvent) (c : Cert) (pre : List (Option Err × S2Event))
    (h : ∀ p ∈ pre, cleanRotation p) :
    serveHelper false (.ctxDone none (some .serverClosed)) launch first sched w =
      .returned none ∧
    serveHelper true plain none (.firstRecv c)
        (pre ++ [(some .canceled, .outerDone)]) none =
      .returned (some (.wrap "serving with certificate" .canceled)) := by
  constructor
  · rfl
  · simp [serveHelper, serveHelperCert, serveLoop_cancel pre c h, joinOpt]

/-- Witness for C2's theorem: an empty rotation history. -/
theorem serveHelper_cancel_spec_witness :
    serveHelper false (.ctxDone none (some .serverClosed)) none (.firstRecv 0) [] none =
      .returned none ∧
    serveHelper true (.listenerDone none) none (.firstRecv 0)
        [(some .canceled, .outerDone)] none =
      .returned (some (.wrap "serving with certificate" .canceled)) :=
  serveHelper_cancel_spec none (.firstRecv 0) [] none (.listenerDone none) 0 []
    (fun p hp => absurd hp (List.not_mem_nil p))

/-- C3: when certificate B arrives while serving certificate A (outer context
alive), the inner per-certificate context is canceled and the listener's
resulting error — nil after its graceful shutdown, or Canceled — is
swallowed: serveHelper2 hands back certificate B with a nil error, the
serving loop re-enters Serving with B, and the canceled inner listener's
own return value (graceful shutdown then `http.ErrServerClosed`) is nil. -/
theorem rotation_swallows_canceled (a b : Cert) (ie : Option Err)
    (hie : ie = none ∨ errIsOpt .canceled ie = true) :
    serveHelper2 none (.certArrived b ie) = (some b, none) ∧
    serveLoop a [(none, .certArrived b ie)] = .serving b ∧
    serveWithCert (.ctxDone none (some .serverClosed)) = none := by
  have hsw : swallow none ie = none := by
    rcases hie with h | h
    · subst h; rfl
    · simp [swallow, h]
  refine ⟨?_, ?_, rfl⟩
  · simp [serveHelper2, hsw, wrapOpt]
  · simp [serveLoop, serveHelper2, hsw, wrapOpt]

/-- Witness for C3's theorem: rotating from certificate 0 to certificate 1
with the inner listener reporting Canceled. -/
theorem rotation_swallows_canceled_witness :
    serveHelper2 none (.certArrived 1 (some .canceled)) = (some 1, none) ∧
    serveLoop 0 [(none, .certArrived 1 (some .canceled))] = .serving 1 ∧
    serveWithCert (.ctxDone none (some .serverClosed)) = none :=
  rotation_swallows_canceled 0 1 (some .canceled) (Or.inr (by decide))

/-! ## Directory listing and path resolution -/

theorem mem_concatMap {α β : Type} {f : α → List β} {x : α} {l : List α} {b : β}
    (hx : x ∈ l) (hb : b ∈ f x) : b ∈ concatMap f l := by
  induction l with
  | nil => exact absurd hx (List.not_mem_nil x)
  | cons y ys ih =>
    rcases List.mem_cons.mp hx with h | h
    · subst h
      exact List.mem_append_left _ hb
    · exact List.mem_append_right _ (ih h)

/-- C7, claim as stated, fails: with "Alien" in the Metadata Table (empty
subdirectory label) but "Alien.iso" absent from the Object Name Set, the
top-level listing contains no entry at all for it. -/
theorem listEntries_needs_object :
    lookupInfo (SrvState.mk [] [("Alien", {})] true).infoMap "Alien" = some {} ∧
    ({} : movieInfo).subdir = "" ∧
    rootNamePrefix "Alien" ++ "Alien.iso" ∉ listEntries ⟨[], [("Alien", {})], true⟩ "" := by
  refine ⟨by decide, rfl, ?_⟩
  have h : listEntries ⟨[], [("Alien", {})], true⟩ "" = [] := by decide
  rw [h]
  exact List.not_mem_nil _

/-- C7 (amended): when the Object Name Set contains "Alien.iso" and the
Metadata Table maps root name "Alien" to a record with an empty
subdirectory label, the top-level listing includes both the prefixed media
entry and the prefixed .nfo entry. -/
theorem listEntries_contains_Alien (st : SrvState) (info : movieInfo)
    (hobj : "Alien.iso" ∈ st.objNames)
    (hinfo : lookupInfo st.infoMap "Alien" = some info)
    (hsub : info.subdir = "") :
    rootNamePrefix "Alien" ++ "Alien.iso" ∈ listEntries st "" ∧
    rootNamePrefix "Alien" ++ "Alien.nfo" ∈ listEntries st "" := by
  have hext : goExt "Alien.iso" = ".iso" := by decide
  have htrim : goTrimSuffix "Alien.iso" ".iso" = "Alien" := by decide
  have hnfo : ("Alien" : String) ++ ".nfo" = "Alien.nfo" := by decide
  have hep : entryPaths st "" "Alien.iso" =
      [rootNamePrefix "Alien" ++ "Alien.iso", rootNamePrefix "Alien" ++ "Alien.nfo"] := by
    simp only [entryPaths, hext, htrim, hinfo, hsub]
    rw [String.append_assoc, hnfo]
    simp
  constructor
  · exact List.mem_append_left _ (mem_concatMap hobj (by rw [hep]; simp))
  · exact List.mem_append_left _ (mem_concatMap hobj (by rw [hep]; simp))

/-- Witness for C7's theorem: a one-object bucket and a one-row table. -/
theorem listEntries_contains_Alien_witness :
    rootNamePrefix "Alien" ++ "Alien.iso" ∈ listEntries ⟨["Alien.iso"], [("Alien", {})], true⟩ "" ∧
    rootNamePrefix "Alien" ++ "Alien.nfo" ∈ listEntries ⟨["Alien.iso"], [("Alien", {})], true⟩ "" :=
  listEntries_contains_Alien ⟨["Alien.iso"], [("Alien", {})], true⟩ {}
    (by decide) (by decide) rfl

/-- C8: a request path that matches no record's subdirectory label and no
prefixed root name (with or without a subdirectory qualifier) still
resolves without error, to an empty subdirectory and the raw path itself. -/
theorem parsePath_no_match (infoMap : List (String × movieInfo)) (path : String)
    (h : ∀ p ∈ infoMap,
      path ≠ p.2.subdir ∧
      goTrimSuffix path (goExt path) ≠
        p.2.subdir ++ "/" ++ rootNamePrefix p.1 ++ p.1 ∧
      goTrimSuffix path (goExt path) ≠ rootNamePrefix p.1 ++ p.1) :
    parsePath none infoMap path = .ok ("", path) := by
  rw [parsePath]
  congr 1
  induction infoMap with
  | nil => rfl
  | cons p rest ih =>
    obtain ⟨h1, h2, h3⟩ := h p (List.mem_cons_self p rest)
    obtain ⟨rootName, info⟩ := p
    simp only [parsePathLoop, if_neg h1, if_neg h2, if_neg h3]
    exact ih fun q hq => h q (List.mem_cons_of_mem _ hq)

/-- Witness for C8's theorem: the path "x" against a one-record table; its
disequalities follow from the prefix length (8) and a first-character
comparison. -/
theorem parsePath_no_match_witness :
    parsePath none [("Alien", {})] "x" = .ok ("", "x") := by
  refine parsePath_no_match [("Alien", {})] "x" ?_
  intro p hp
  have hp' : p = ("Alien", ({} : movieInfo)) := by
    simpa using hp
  subst hp'
  refine ⟨by decide, ?_, ?_⟩
  · intro hcontra
    have := congrArg String.length hcontra
    rw [show goTrimSuffix "x" (goExt "x") = "x" from by decide] at this
    simp only [String.length_append, rootNamePrefix_length,
      show ("x" : String).length = 1 from rfl, show ("/" : String).length = 1 from rfl,
      show ("" : String).length = 0 from rfl,
      show ("Alien" : String).length = 5 from rfl] at this
    omega
  · intro hcontra
    have := congrArg String.length hcontra
    rw [show goTrimSuffix "x" (goExt "x") = "x" from by decide] at this
    simp only [String.length_append, rootNamePrefix_length,
      show ("x" : String).length = 1 from rfl,
      show ("Alien" : String).length = 5 from rfl] at this
    omega

/-! ## Basic Auth gate -/

/-- C10: when both a username and a password are configured, a request with
absent or mismatched Basic Auth credentials is answered 401 Unauthorized
with both caches unchanged and no backend access, before any path parsing
or cache refresh. -/
theorem handle_auth_gate (cfg : SrvCfg) (env : HandleEnv) (req : HttpReq)
    (obj : ObjCache) (info : InfoCache)
    (hu : cfg.username ≠ "") (hp : cfg.password ≠ "")
    (hbad : ∀ u p, req.basicAuth = some (u, p) → u ≠ cfg.username ∨ p ≠ cfg.password) :
    handle cfg env req obj info = (.unauthorized, (obj, info), []) := by
  rw [handle, if_pos ⟨hu, hp⟩]
  rcases hauth : req.basicAuth with _ | ⟨u, p⟩
  · rfl
  · simp [hbad u p hauth]

/-- Witness for C10's theorem: credentials configured, none supplied. -/
theorem handle_auth_gate_witness :
    handle ⟨"user", "pw", "", true⟩
        ⟨0, .enumOk [], .sheetOk [], fun t => t⟩ ⟨none, "/Alien.iso"⟩
        ⟨none, 0⟩ ⟨[], 0⟩ =
      (.unauthorized, (⟨none, 0⟩, ⟨[], 0⟩), []) :=
  handle_auth_gate ⟨"user", "pw", "", true⟩ ⟨0, .enumOk [], .sheetOk [], fun t => t⟩
    ⟨none, "/Alien.iso"⟩ ⟨none, 0⟩ ⟨[], 0⟩ (by decide) (by decide)
    (fun u p h => by simp at h)

/-! ## Metadata row processing: defaults and parse-failure isolation -/

/-- C9, claim as stated, fails: a processed row whose name cell is the empty
string (still a string cell on a row of length 2, so handleSheet processes
it) stores a record with an empty Title and an empty SortTitle. -/
theorem processRow_empty_title :
    ((processSheet (fun t => t) [[some "name", some "subdir"], [some "", some "x"]]).bind
        (fun m => lookupInfo m "")).map (fun i => (i.Title, i.SortTitle)) = some ("", "") := by
  decide

/-- C9 (amended): for every processed row whose root name is non-empty, the
stored record has a non-empty Title — defaulting to the root name when the
row supplies no title — and, provided the external `bib.Key` collaborator
maps non-empty titles to non-empty keys, a non-empty SortTitle, derived
from the Title when not supplied. -/
theorem processRow_nonempty (bk : String → String) (headings : List String)
    (name : String) (row : List Cell)
    (hroot : rootNameOf name ≠ "")
    (hbk : ∀ t, t ≠ "" → bk t ≠ "") :
    (processRow bk headings name row).Title ≠ "" ∧
    (processRow bk headings name row).SortTitle ≠ "" := by
  simp only [processRow]
  set info := procCells headings (rootNameOf name) row 0 {} with hinfo
  set info2 := (if info.Title = "" then { info with Title := rootNameOf name } else info)
    with hinfo2
  have hT : info2.Title ≠ "" := by
    rw [hinfo2]
    split
    · simpa using hroot
    · assumption
  split
  · exact ⟨by simpa using hT, by simpa using hbk _ hT⟩
  · exact ⟨hT, by assumption⟩

/-- Witness for C9's theorem: a row supplying neither title nor sort. -/
theorem processRow_nonempty_witness :
    (processRow (fun t => t) ["name", "subdir"] "Alien.iso" [some "Alien.iso", some "x"]).Title ≠ "" ∧
    (processRow (fun t => t) ["name", "subdir"] "Alien.iso" [some "Alien.iso", some "x"]).SortTitle ≠ "" :=
  processRow_nonempty (fun t => t) ["name", "subdir"] "Alien.iso" [some "Alien.iso", some "x"]
    (by decide) (fun t ht => ht)

/-! ## Year-field parse failures are local to the field -/

/-- The trailer switch never touches the Year field. -/
theorem applyTrailer_Year (val : String) (info : movieInfo) :
    (applyTrailer val info).Year = info.Year := by
  rw [applyTrailer]
  split
  · rfl
  · split_ifs with hh hw hb
    · rfl
    · split
      · split_ifs <;> rfl
      · rfl
    · dsimp only
      split_ifs <;> rfl
    · rfl

/-- A field application whose heading is not a parseable "year" leaves Year
unchanged. -/
theorem applyField_Year (rootName heading val : String) (info : movieInfo)
    (hy : heading = "year" → goAtoi val = none) :
    (applyField rootName heading val info).Year = info.Year := by
  by_cases h1 : heading = "title"
  · subst h1; rw [applyField.eq_1]
  by_cases h2 : heading = "sort"
  · subst h2; rw [applyField.eq_2]
  by_cases h3 : heading = "year"
  · subst h3; rw [applyField.eq_3, hy rfl]
  by_cases h4 : heading = "banner"
  · subst h4; rw [applyField.eq_4]
  by_cases h5 : heading = "clearart"
  · subst h5; rw [applyField.eq_5]
  by_cases h6 : heading = "clearlogo"
  · subst h6; rw [applyField.eq_6]
  by_cases h7 : heading = "discart"
  · subst h7; rw [applyField.eq_7]
  by_cases h8 : heading = "landscape"
  · subst h8; rw [applyField.eq_8]
  by_cases h9 : heading = "poster"
  · subst h9; rw [applyField.eq_9]
  by_cases h10 : heading = "directors"
  · subst h10; rw [applyField.eq_10]
  by_cases h11 : heading = "actors"
  · subst h11; rw [applyField.eq_11]
  by_cases h12 : heading = "runtime"
  · subst h12; rw [applyField.eq_12]; cases goAtoi val <;> rfl
  by_cases h13 : heading = "trailer"
  · subst h13; rw [applyField.eq_13]; exact applyTrailer_Year val info
  by_cases h14 : heading = "outline"
  · subst h14; rw [applyField.eq_14]
  by_cases h15 : heading = "plot"
  · subst h15; rw [applyField.eq_15]
  by_cases h16 : heading = "tagline"
  · subst h16; rw [applyField.eq_16]
  by_cases h17 : heading = "genre"
  · subst h17; rw [applyField.eq_17]
  by_cases h18 : heading = "subdir"
  · subst h18; rw [applyField.eq_18]
  by_cases h19 : heading = "imdbid"
  · subst h19; rw [applyField.eq_19]
  rw [applyField.eq_20 rootName heading val info h1 h2 h3 h4 h5 h6 h7 h8 h9 h10
    h11 h12 h13 h14 h15 h16 h17 h18 h19]

/-- A "year" cell that fails strconv.Atoi is skipped entirely. -/
theorem applyCell_year_skip (rootName v : String) (info : movieInfo)
    (hbad : goAtoi v = none) :
    applyCell rootName "year" (some v) info = info := by
  simp only [applyCell]
  split_ifs with h
  · rfl
  · rw [applyField.eq_3, hbad]

/-- An empty-string cell is skipped. -/
theorem applyCell_empty (rootName heading : String) (info : movieInfo) :
    applyCell rootName heading (some "") info = info := by
  simp [applyCell]

/-- The row loop leaves Year unchanged when every "year" cell fails to parse. -/
theorem procCells_Year (headings : List String) (rootName : String) :
    ∀ (row : List Cell) (i : Nat) (info : movieInfo),
    (∀ k val, headings.getD (i + k) "" = "year" → row.get? k = some (some val) →
      goAtoi val = none) →
    (procCells headings rootName row i info).Year = info.Year := by
  intro row
  induction row with
  | nil => intro i info _; rfl
  | cons c rest ih =>
    intro i info h
    simp only [procCells]
    split_ifs with h0 hlt
    · refine ih (i + 1) info fun k val hk hv => ?_
      refine h (k + 1) val ?_ (by simpa using hv)
      rw [← hk]
      congr 1
      omega
    · rw [ih (i + 1) _ fun k val hk hv => h (k + 1) val (by rw [← hk]; congr 1; omega)
        (by simpa using hv)]
      rcases c with _ | val
      · rfl
      · simp only [applyCell]
        split_ifs with hv0
        · rfl
        · exact applyField_Year rootName _ val info fun hyr =>
            h 0 val (by simpa using hyr) (by simp)
    · rfl

/-- The row loop treats an unparseable "year" cell exactly like an empty cell. -/
theorem procCells_set (headings : List String) (rootName : String) :
    ∀ (row : List Cell) (j i : Nat) (v : String) (info : movieInfo),
    headings.getD (i + j) "" = "year" →
    row.get? j = some (some v) →
    goAtoi v = none →
    procCells headings rootName row i info =
      procCells headings rootName (row.set j (some "")) i info := by
  intro row
  induction row with
  | nil => intro j i v info _ hv _; exact absurd hv (by simp)
  | cons c rest ih =>
    intro j i v info hj hv hbad
    cases j with
    | zero =>
      have hc : c = some v := by simpa using hv
      subst hc
      show procCells headings rootName (some v :: rest) i info =
        procCells headings rootName (some "" :: rest) i info
      simp only [procCells]
      split_ifs with h0 hlt
      · rfl
      · have hy : headings.getD i "" = "year" := by simpa using hj
        rw [hy, applyCell_year_skip rootName v info hbad, applyCell_empty]
      · rfl
    | succ j' =>
      show procCells headings rootName (c :: rest) i info =
        procCells headings rootName (c :: rest.set j' (some "")) i info
      simp only [procCells]
      split_ifs with h0 hlt
      · exact ih j' (i + 1) v info (by rw [← hj]; congr 1; omega) (by simpa using hv) hbad
      · exact ih j' (i + 1) v (applyCell rootName (headings.getD i "") c info)
          (by rw [← hj]; congr 1; omega) (by simpa using hv) hbad
      · rfl

/-- A processed row with an unparseable "year" cell equals the same row with
that cell blanked: no other field of the record is affected. -/
theorem processRow_set (bk : String → String) (headings : List String)
    (name v : String) (row : List Cell) (j : Nat)
    (hj : headings.getD j "" = "year")
    (hv : row.get? j = some (some v))
    (hbad : goAtoi v = none) :
    processRow bk headings name row = processRow bk headings name (row.set j (some "")) := by
  simp only [processRow,
    procCells_set headings (rootNameOf name) row j 0 v {} (by simpa using hj) hv hbad]

theorem head?_set_succ (l : List Cell) (j : Nat) (x : Cell) :
    (l.set (j + 1) x).head? = l.head? := by
  cases l <;> rfl

/-- One sheet row with an unparseable "year" cell produces the same table
update as with that cell blanked. -/
theorem sheetStep_set (bk : String → String) (headings : List String)
    (m : List (String × movieInfo)) (v : String) (row : List Cell) (j : Nat)
    (hj : headings.getD (j + 1) "" = "year")
    (hv : row.get? (j + 1) = some (some v))
    (hbad : goAtoi v = none) :
    sheetStep bk headings m row = sheetStep bk headings m (row.set (j + 1) (some "")) := by
  simp only [sheetStep, List.length_set, head?_set_succ]
  rcases hhd : row.head? with _ | c
  · rfl
  · rcases c with _ | nm
    · rfl
    · split_ifs with hlen
      · rfl
      · show mapInsert m (rootNameOf nm) (processRow bk headings nm row) =
          mapInsert m (rootNameOf nm) (processRow bk headings nm (row.set (j + 1) (some "")))
        rw [processRow_set bk headings nm v row (j + 1) hj hv hbad]

/-- C6: during a Metadata Table refresh, a row cell under the "year" heading
whose value fails to parse is skipped without aborting anything: the row's
record equals the record of the same row with that cell blanked (every
other field on the row is populated as usual); when every "year" cell of
the row fails to parse, the record's Year is the zero value; and every
other row of the sheet produces an unchanged table entry. -/
theorem yearParseFailure_skips (bk : String → String) (headings : List String)
    (name v : String) (row : List Cell) (j : Nat)
    (hj : headings.getD j "" = "year")
    (hv : row.get? j = some (some v))
    (hbad : goAtoi v = none) :
    processRow bk headings name row = processRow bk headings name (row.set j (some "")) ∧
    ((∀ k val, headings.getD k "" = "year" → row.get? k = some (some val) →
        goAtoi val = none) →
      (processRow bk headings name row).Year = 0) ∧
    (∀ (hr : List Cell) (pre post : List (List Cell)), 0 < j → buildHeadings hr = headings →
      processSheet bk (hr :: (pre ++ row :: post)) =
        processSheet bk (hr :: (pre ++ row.set j (some "") :: post))) := by
  refine ⟨processRow_set bk headings name v row j hj hv hbad, ?_, ?_⟩
  · intro hall
    have hY : (procCells headings (rootNameOf name) row 0 {}).Year = ({} : movieInfo).Year :=
      procCells_Year headings (rootNameOf name) row 0 {}
        (fun k val hk hv' => hall k val (by simpa using hk) hv')
    simp only [processRow]
    set info := procCells headings (rootNameOf name) row 0 {} with hinfo
    set info2 := (if info.Title = "" then { info with Title := rootNameOf name } else info)
      with hinfo2
    have hY2 : info2.Year = 0 := by
      rw [hinfo2]
      split
      · simpa using hY
      · simpa using hY
    split
    · simpa using hY2
    · exact hY2
  · intro hr pre post hj0 hbh
    obtain ⟨j', rfl⟩ : ∃ j'', j = j'' + 1 := ⟨j - 1, by omega⟩
    cases pre with
    | nil =>
      simp only [List.nil_append, processSheet, List.foldl_cons]
      rw [sheetStep_set bk (buildHeadings hr) [] v row j' (hbh ▸ hj) hv hbad]
    | cons p0 pre' =>
      simp only [List.cons_append, processSheet, List.foldl_cons]
      congr 1
      rw [List.foldl_append, List.foldl_append]
      simp only [List.foldl_cons]
      congr 1
      exact sheetStep_set bk (buildHeadings hr) _ v row j' (hbh ▸ hj) hv hbad

/-- Witness for C6's theorem: headings ["name", "year"], a row whose year cell
is "notanumber". -/
theorem yearParseFailure_skips_witness :
    processRow (fun t => t) ["name", "year"] "Alien.iso"
        [some "Alien.iso", some "notanumber"] =
      processRow (fun t => t) ["name", "year"] "Alien.iso"
        ([some "Alien.iso", some "notanumber"].set 1 (some "")) ∧
    (processRow (fun t => t) ["name", "year"] "Alien.iso"
        [some "Alien.iso", some "notanumber"]).Year = 0 := by
  have h := yearParseFailure_skips (fun t => t) ["name", "year"] "Alien.iso" "notanumber"
    [some "Alien.iso", some "notanumber"] 1 (by decide) (by decide) (by decide)
  refine ⟨h.1, h.2.1 ?_⟩
  intro k val hk hv
  match k with
  | 0 => exact absurd hk (by decide)
  | 1 =>
    have hval : val = "notanumber" := by simpa using hv.symm
    subst hval
    decide
  | (n + 2) =>
    rw [List.getD_eq_default] at hk
    · exact absurd hk (by decide)
    · simp
